import Mathlib

/-!
Verification development for the `oppsql` library (`src/oppsql/__init__.py`).

The Python source is shallowly embedded: dynamic Python values become the
inductive `PyVal`, raised exceptions become `Except PyError`, floats are
modelled as rationals (no floating-point arithmetic is performed on them),
and the SQL layer is modelled by executable list functions over an explicit
database value.  The table catalog (`oppsql.model`) is not part of the
sources, so its schema is modelled from the spec (see `Database`).
-/

namespace Oppsql

/-- Scalar values accepted as filter entries (Python `int`, `float`, `bool`,
`str`); Python floats are modelled as rationals since the code never performs
floating-point arithmetic on filter values. -/
inductive Scalar where
  | int (n : Int)
  | float (q : ℚ)
  | bool (b : Bool)
  | str (s : String)
deriving DecidableEq, Repr

/-- Dynamic Python values, as far as the embedded code inspects them. -/
inductive PyVal where
  | vNone
  | vInt (n : Int)
  | vFloat (q : ℚ)
  | vBool (b : Bool)
  | vStr (s : String)
  | vList (xs : List PyVal)
  | vDict (entries : List (PyVal × PyVal))

/-- Python exceptions raised by the embedded code. -/
inductive PyError where
  | typeError (msg : String)
  | keyError (key : String)
  | indexError
  | valueError
deriving DecidableEq, Repr

/-- Decidable equality for `Except` results, so that concrete runs of the
embedded functions can be checked by `decide`. -/
instance {ε α : Type} [DecidableEq ε] [DecidableEq α] :
    DecidableEq (Except ε α) := fun x y =>
  match x, y with
  | .ok a, .ok b =>
      if h : a = b then .isTrue (congrArg Except.ok h)
      else .isFalse (fun hh => h (by injection hh))
  | .error a, .error b =>
      if h : a = b then .isTrue (congrArg Except.error h)
      else .isFalse (fun hh => h (by injection hh))
  | .ok _, .error _ => .isFalse (fun hh => by injection hh)
  | .error _, .ok _ => .isFalse (fun hh => by injection hh)

/-- The value of a `PyVal` when its type is one of the four scalar types
(`type(x) in (int, float, bool, str)`). -/
def PyVal.asScalar : PyVal → Option Scalar
  | .vInt n => some (.int n)
  | .vFloat q => some (.float q)
  | .vBool b => some (.bool b)
  | .vStr s => some (.str s)
  | _ => none

/-- The value of a `PyVal` when it is a Python `str`. -/
def PyVal.asStr : PyVal → Option String
  | .vStr s => some s
  | _ => none

/-- Embedding of a `Scalar` back into `PyVal`. -/
def Scalar.toPy : Scalar → PyVal
  | .int n => .vInt n
  | .float q => .vFloat q
  | .bool b => .vBool b
  | .str s => .vStr s

/-- Message of the `TypeError` raised by `normalize_filter`. -/
def filterTypeMsg : String :=
  "Filter must be string, int, float or bool, a list of these or None"

/-- Message of the `TypeError` raised by `normalize_by`. -/
def byTypeMsg : String := "By must be string, list of strings or dictionary"

/-- All elements of a Python list viewed as scalars
(`all(type(val) in valid_types for val in filter_)`), or `none` if some
element is not a scalar. -/
def asScalarList : List PyVal → Option (List Scalar)
  | [] => some []
  | x :: xs =>
      match x.asScalar, asScalarList xs with
      | some v, some vs => some (v :: vs)
      | _, _ => none

/-- All elements of a Python list viewed as strings
(`all(type(attr) == str for attr in by)`), or `none` otherwise. -/
def asStrList : List PyVal → Option (List String)
  | [] => some []
  | x :: xs =>
      match x.asStr, asStrList xs with
      | some v, some vs => some (v :: vs)
      | _, _ => none

/-- Embeds `normalize_filter` from `get_vector`: `None` becomes the empty
list, a scalar becomes a one-element list, a list of scalars is used as is,
anything else raises `TypeError`. -/
def normalize_filter : PyVal → Except PyError (List Scalar)
  | .vNone => .ok []
  | .vInt n => .ok [.int n]
  | .vFloat q => .ok [.float q]
  | .vBool b => .ok [.bool b]
  | .vStr s => .ok [.str s]
  | .vList xs =>
      match asScalarList xs with
      | some vs => .ok vs
      | none => .error (.typeError filterTypeMsg)
  | .vDict _ => .error (.typeError filterTypeMsg)

/-- A normalized grouping specification: attribute names with their ordered
filter lists, in caller order. -/
abbrev GroupMap := List (String × List Scalar)

/-- Distinct elements in first-occurrence order; models both Python's dict
comprehension over a list of keys and SQL `DISTINCT` row output. -/
def dedupFirst {α : Type} [DecidableEq α] : List α → List α
  | [] => []
  | a :: rest => a :: (dedupFirst rest).filter (fun b => b ≠ a)

/-- Normalization of the entries of a `by` dictionary: each value goes
through `normalize_filter`, the first failure is raised.  Keys are assumed
to have been checked to be strings (as the source does first). -/
def normEntries : List (PyVal × PyVal) → Except PyError GroupMap
  | [] => .ok []
  | (k, f) :: rest =>
      match normalize_filter f with
      | .error e => .error e
      | .ok fl =>
          match normEntries rest with
          | .error e => .error e
          | .ok tail => .ok ((k.asStr.getD "", fl) :: tail)

/-- Embeds `normalize_by` from `get_vector`: a string becomes a single
unconstrained attribute, a list of strings a map of unconstrained attributes
(first-occurrence key order, as for a Python dict comprehension), a dict
with string keys maps each value through `normalize_filter`; any other
shape raises `TypeError`. -/
def normalize_by (by_ : PyVal) : Except PyError GroupMap :=
  match by_ with
  | .vStr s => .ok [(s, [])]
  | .vList xs =>
      match asStrList xs with
      | some names => .ok ((dedupFirst names).map (fun a => (a, [])))
      | none => .error (.typeError byTypeMsg)
  | .vDict entries =>
      if entries.all (fun e => e.1.asStr.isSome) then normEntries entries
      else .error (.typeError byTypeMsg)
  | _ => .error (.typeError byTypeMsg)

/-- Embeds `normalize_variable` from `get_vector`: a string becomes a
one-element list, every other value is returned unchanged (no validation
happens here). -/
def normalize_variable : PyVal → PyVal
  | .vStr s => .vList [.vStr s]
  | v => v

/-- One row of the `run` table. -/
structure RunRow where
  runId : Nat
  simtimeExp : Int
deriving DecidableEq, Repr

/-- One row of the `runattr` table. -/
structure RunAttrRow where
  runId : Nat
  dbId : Nat
  attrName : String
  attrValue : String
deriving DecidableEq, Repr

/-- One row of the `runparam` table. -/
structure RunParamRow where
  parName : String
  parValue : String
deriving DecidableEq, Repr

/-- One row of the `vector` table. -/
structure VectorRow where
  vectorId : Nat
  runId : Nat
  moduleName : String
  vectorName : String
deriving DecidableEq, Repr

/-- One row of the `vectordata` table.  Sample values are modelled as
rationals. -/
structure VectorDataRow where
  vectorId : Nat
  simtimeRaw : Int
  value : ℚ
deriving DecidableEq, Repr

/-- Modelled from the spec: the table catalog of the `oppsql.model` module,
which is not among the sources.  The spec gives the logical relations
Run(run id, simtime exponent), RunAttribute(run id, row id, name, value),
RunParameter(name, value), Vector(run id, module name, vector name) and
VectorSample(vector ref, raw timestamp, value); joins follow the run-id and
vector-id foreign keys. -/
structure Database where
  run : List RunRow
  runattr : List RunAttrRow
  runparam : List RunParamRow
  vector : List VectorRow
  vectordata : List VectorDataRow
deriving DecidableEq, Repr

/-- Does `f s` hold for `s` or one of its tails?  Helper for the `%`
wildcard of SQL `LIKE`. -/
def anyTail (f : List Char → Bool) : List Char → Bool
  | [] => f []
  | s@(_ :: t) => f s || anyTail f t

/-- SQL `LIKE` pattern matching as implemented by SQLite: `%` matches any
sequence of characters, `_` any single character, every other pattern
character matches itself. -/
def likeMatch : List Char → List Char → Bool
  | [], s => s.isEmpty
  | c :: p, s =>
      if c = '%' then anyTail (likeMatch p) s
      else
        match s with
        | [] => false
        | d :: t => (c = '_' || c = d) && likeMatch p t

/-- Embeds the row selection of `get_unique_param`:
`SELECT runparam.parValue WHERE runparam.parName LIKE '%name'`. -/
def matchedParamRows (db : Database) (name : String) : List RunParamRow :=
  db.runparam.filter (fun r => likeMatch ('%' :: name.data) r.parName.data)

/-- The `DISTINCT` value list of `get_unique_param`'s query. -/
def distinctParamValues (db : Database) (name : String) : List String :=
  dedupFirst ((matchedParamRows db name).map (fun r => r.parValue))

/-- The Python type objects passed as the `type` argument of
`get_unique_param`. -/
inductive PyType where
  | intT
  | floatT
  | strT
  | boolT
deriving DecidableEq, Repr

/-- Models sqlalchemy's `ResultProxy.scalar()`: the first column of the first
row, or `None` when the result has no rows.  It performs no uniqueness
check. -/
def scalarOfResult : List String → Option String := List.head?

/-- Natural number denoted by a non-empty string of decimal digits. -/
def digitsToNat (cs : List Char) : Option Nat :=
  if cs ≠ [] ∧ cs.all Char.isDigit then
    some (cs.foldl (fun n c => n * 10 + (c.toNat - 48)) 0)
  else none

/-- Model of Python's `int(str)`: an optional sign followed by decimal
digits. -/
def parseInt (s : String) : Option Int :=
  match s.data with
  | '-' :: rest => (digitsToNat rest).map (fun n => -(n : Int))
  | cs => (digitsToNat cs).map (fun n => (n : Int))

/-- Minimal model of Python's `float(str)`: an optional sign, an integer
part and an optional fractional part. -/
def parseDecimal (s : String) : Option ℚ :=
  let core : List Char → Option ℚ := fun cs =>
    match cs.splitOn '.' with
    | [ip] => (digitsToNat ip).map (fun n => (n : ℚ))
    | [ip, fp] =>
        match digitsToNat ip, digitsToNat fp with
        | some i, some f => some ((i : ℚ) + (f : ℚ) / (10 : ℚ) ^ fp.length)
        | _, _ => none
    | _ => none
  match s.data with
  | '-' :: rest => (core rest).map (fun q => -q)
  | cs => core cs

/-- Application of the Python type object `type(...)` to the scalar returned
by the query: `int`/`float` fail with `TypeError` on `None` and with
`ValueError` on unparsable text, `str` and `bool` never fail (`str(None)`
is the string `"None"`, `bool(None)` is `False`, a non-empty string is
truthy). -/
def coerce (t : PyType) (v : Option String) : Except PyError Scalar :=
  match t, v with
  | .strT, none => .ok (.str "None")
  | .strT, some s => .ok (.str s)
  | .boolT, none => .ok (.bool false)
  | .boolT, some s => .ok (.bool (s ≠ ""))
  | .intT, none => .error (.typeError "int() argument cannot be None")
  | .intT, some s =>
      match parseInt s with
      | some n => .ok (.int n)
      | none => .error .valueError
  | .floatT, none => .error (.typeError "float() argument cannot be None")
  | .floatT, some s =>
      match parseDecimal s with
      | some q => .ok (.float q)
      | none => .error .valueError

/-- Embeds `get_unique_param`: the requested type applied to the scalar of
the distinct-value query for parameter names ending in `name`. -/
def get_unique_param (db : Database) (name : String) (t : PyType) :
    Except PyError Scalar :=
  coerce t (scalarOfResult (distinctParamValues db name))

/-- One entry of the process-wide warning filter list, holding the arguments
`_ignore_decimal_warning` passes to `warnings.filterwarnings` (the message
and module regexes are kept as their pattern strings, which is faithful to
entry equality because CPython's `re.compile` caches pattern objects). -/
structure WarningFilter where
  action : String
  message : String
  category : String
  modulePattern : String
  lineno : Nat
deriving DecidableEq, Repr

/-- Models CPython's `warnings._add_filter` with `append=False` (the
behavior of `warnings.filterwarnings`): any entry equal to the new one is
removed and the new entry is inserted at the front of the filter list. -/
def filterwarnings (fs : List WarningFilter) (e : WarningFilter) :
    List WarningFilter :=
  e :: fs.erase e

/-- The filter entry installed by `_ignore_decimal_warning`. -/
def decimalWarningFilter : WarningFilter :=
  { action := "ignore"
    message := "^Dialect sqlite\\+pysqlite does \\*not\\* support Decimal objects natively\\, and SQLAlchemy must convert from floating point - rounding errors and other issues may occur\\. Please consider storing Decimal numbers as strings or integers on this platform for lossless storage\\.$"
    category := "SAWarning"
    modulePattern := "^sqlalchemy\\.sql\\.sqltypes$"
    lineno := 0 }

/-- Embeds `_ignore_decimal_warning`, acting on an explicit filter-list
state in place of the process-wide `warnings.filters`. -/
def ignore_decimal_warning (fs : List WarningFilter) : List WarningFilter :=
  filterwarnings fs decimalWarningFilter

/-- Embeds `_map_python_value` composed with the database's TEXT-affinity
comparison: booleans are lowercased, numbers are rendered as the text the
TEXT-affinity `attrValue` column compares them against, strings are kept. -/
def scalarToDb : Scalar → String
  | .bool b => if b then "true" else "false"
  | .int n => toString n
  | .float q => toString q
  | .str s => s

/-- Embeds `single_filter`: the attribute's filter list has exactly one
entry. -/
def single_filter (fl : List Scalar) : Bool := fl.length == 1

/-- Embeds `attribute_filter_expression` applied to one `runattr` row:
`attrName == attribute AND (attrValue IN mapped filter values OR TRUE when
the filter list is empty)`. -/
def attribute_filter (attr : String) (fl : List Scalar) (r : RunAttrRow) :
    Bool :=
  r.attrName == attr && (fl.isEmpty || (fl.map scalarToDb).contains r.attrValue)

/-- One row of the joined `run ⋈ vector ⋈ vectordata ⋈ attribute subqueries`
relation; `attrVals` holds the chosen `attrValue` of each attribute
subquery, aligned with the grouping map's order. -/
structure JRow where
  runId : Nat
  simtimeExp : Int
  moduleName : String
  vectorName : String
  simtimeRaw : Int
  value : ℚ
  attrVals : List String
deriving DecidableEq, Repr

/-- All combinations of attribute-subquery rows for one run: the inner join
against each per-attribute subquery of `runattr` (`attribute_subqueries`),
in the grouping map's order. -/
def attrAssignments (db : Database) (by_ : GroupMap) (rid : Nat) :
    List (List String) :=
  by_.foldr
    (fun af acc =>
      ((db.runattr.filter
          (fun r => r.runId == rid && attribute_filter af.1 af.2 r)).map
        (fun r => r.attrValue)).flatMap
        (fun v => acc.map (fun vs => v :: vs)))
    [[]]

/-- The rows of `run.join(vector).join(vectordata)` joined with every
attribute subquery; a run lacking a matching attribute row contributes no
rows (inner join). -/
def joinedRows (db : Database) (by_ : GroupMap) : List JRow :=
  db.run.flatMap (fun r =>
    (db.vector.filter (fun v => v.runId == r.runId)).flatMap (fun v =>
      (db.vectordata.filter (fun d => d.vectorId == v.vectorId)).flatMap (fun d =>
        (attrAssignments db by_ r.runId).map (fun avs =>
          { runId := r.runId, simtimeExp := r.simtimeExp
            moduleName := v.moduleName, vectorName := v.vectorName
            simtimeRaw := d.simtimeRaw, value := d.value
            attrVals := avs }))))

/-- The joined rows satisfying the WHERE constraints: the optional caller
filter (modelled as a predicate on the sample value) and
`vectorName IN variable`. -/
def matchedRows (db : Database) (by_ : GroupMap) (vars : List String)
    (filter_ : Option (ℚ → Bool)) : List JRow :=
  (joinedRows db by_).filter (fun jr =>
    (match filter_ with
     | none => true
     | some p => p jr.value) && vars.contains jr.vectorName)

/-- One entry of the built statement's select list. -/
inductive SelCol where
  | attrCol (idx : Nat) (name : String)
  | simtimeCol
  | moduleCol
  | vectorNameCol
  | valueCol
  | aggCol (aggName : String)
deriving DecidableEq, Repr

/-- The column name pandas gives each select entry: attribute columns are
labelled with the attribute name, the raw value column keeps the database
column name `value`, an aggregated value gets sqlalchemy's anonymous label
derived from the function name. -/
def colName : SelCol → String
  | .attrCol _ n => n
  | .simtimeCol => "simtime"
  | .moduleCol => "moduleName"
  | .vectorNameCol => "vectorName"
  | .valueCol => "value"
  | .aggCol n => n ++ "_1"

/-- Embeds the select-list construction of `get_vector` (in source order):
one column per grouping attribute unless its filter list is singular and
the result is not self-descriptive, then the optional simtime and module
columns, the vector-name column unless exactly one variable was requested
and the result is not self-descriptive, and finally the (possibly
aggregated) value column. -/
def select_list (by_ : GroupMap) (time module_ : Bool) (nvars : Nat)
    (sd : Bool) (aggName : Option String) : List SelCol :=
  (by_.enum.filter (fun p => !(p.2.2.length == 1 && !sd))).map
    (fun p => SelCol.attrCol p.1 p.2.1)
  ++ (if time then [SelCol.simtimeCol] else [])
  ++ (if module_ then [SelCol.moduleCol] else [])
  ++ (if !(nvars == 1 && !sd) then [SelCol.vectorNameCol] else [])
  ++ [match aggName with
      | none => SelCol.valueCol
      | some n => SelCol.aggCol n]

/-- One cell of the loaded data frame. -/
inductive Cell where
  | s (v : String)
  | q (v : ℚ)
  | i (v : Int)
  | b (v : Bool)
  | null
deriving DecidableEq, Repr

/-- The dtype of a data-frame column. -/
inductive Dtype where
  | object
  | floatT
  | intT
  | boolT
  | categorical (cats : List String) (ordered : Bool)
deriving DecidableEq, Repr

/-- One column of the loaded data frame. -/
structure Col where
  name : String
  dtype : Dtype
  values : List Cell
deriving DecidableEq, Repr

/-- A pandas data frame, modelled column-wise. -/
abbrev DataFrame := List Col

/-- The dtype `pandas.read_sql` gives each selected column before the cast
loop runs. -/
def initialDtype : SelCol → Dtype
  | .attrCol _ _ => .object
  | .simtimeCol => .floatT
  | .moduleCol => .object
  | .vectorNameCol => .object
  | .valueCol => .floatT
  | .aggCol _ => .floatT

/-- The cell a joined row contributes to a select entry; `simtime` applies
the registered scalar function `simtime(simtimeRaw, simtimeExp)`. -/
def cellOf (jr : JRow) : SelCol → Cell
  | .attrCol i _ => .s (jr.attrVals.getD i "")
  | .simtimeCol => .q ((jr.simtimeRaw : ℚ) * (10 : ℚ) ^ jr.simtimeExp)
  | .moduleCol => .s jr.moduleName
  | .vectorNameCol => .s jr.vectorName
  | .valueCol => .q jr.value
  | .aggCol _ => .q jr.value

/-- An aggregation function: sqlalchemy's function name together with its
action on the grouped sample values. -/
structure Agg where
  name : String
  fn : List ℚ → ℚ

/-- The positions of the grouping attributes the statement groups by: every
attribute whose filter list is not singular
(`if not single_filter(by, attribute)`). -/
def groupIdxs (by_ : GroupMap) : List Nat :=
  (by_.enum.filter (fun p => !single_filter p.2.2)).map (fun p => p.1)

/-- The GROUP BY key of a joined row. -/
def keyOf (idxs : List Nat) (jr : JRow) : List String :=
  idxs.map (fun i => jr.attrVals.getD i "")

/-- Placeholder row; only used on provably non-empty groups. -/
def defaultJRow : JRow :=
  { runId := 0, simtimeExp := 0, moduleName := "", vectorName := ""
    simtimeRaw := 0, value := 0, attrVals := [] }

/-- The groups GROUP BY forms over the matched rows: one group per distinct
key. -/
def aggGroups (by_ : GroupMap) (rows : List JRow) : List (List JRow) :=
  (dedupFirst (rows.map (keyOf (groupIdxs by_)))).map
    (fun k => rows.filter (fun jr => keyOf (groupIdxs by_) jr == k))

/-- The cell one group contributes to a select entry: the aggregation
function applied to the group's sample values for the aggregate column,
and (as SQLite does for selected but ungrouped bare columns) the first
group row's value otherwise. -/
def aggCellOf (g : Agg) (grp : List JRow) : SelCol → Cell
  | .aggCol _ => .q (g.fn (grp.map (fun jr => jr.value)))
  | c => cellOf (grp.headD defaultJRow) c

/-- Embeds `pd.read_sql(stmt, conn)`: the data frame loaded from the built
statement, before the category cast loop runs. -/
def read_sql_df (db : Database) (by_ : GroupMap) (vars : List String)
    (filter_ : Option (ℚ → Bool)) (aggregate : Option Agg)
    (time module_ sd : Bool) : DataFrame :=
  let rows := matchedRows db by_ vars filter_
  let cols := select_list by_ time module_ vars.length sd
    (aggregate.map (fun g => g.name))
  match aggregate with
  | none =>
      cols.map (fun c =>
        { name := colName c, dtype := initialDtype c
          values := rows.map (fun jr => cellOf jr c) })
  | some g =>
      cols.map (fun c =>
        { name := colName c, dtype := initialDtype c
          values := (aggGroups by_ rows).map (fun grp => aggCellOf g grp c) })

/-- Is the cell one of the given category strings? -/
def inCats (cats : List String) : Cell → Bool
  | .s v => cats.contains v
  | _ => false

/-- `astype(int)` on one cell: strings are parsed, unparsable text raises
`ValueError`. -/
def castCellInt : Cell → Except PyError Cell
  | .s v =>
      match parseInt v with
      | some n => .ok (.i n)
      | none => .error .valueError
  | c => .ok c

/-- `astype(float)` on one cell. -/
def castCellFloat : Cell → Except PyError Cell
  | .s v =>
      match parseDecimal v with
      | some q => .ok (.q q)
      | none => .error .valueError
  | c => .ok c

/-- `astype(bool)` on one cell: a non-empty string is truthy. -/
def castCellBool : Cell → Cell
  | .s v => .b (v ≠ "")
  | c => c

/-- Embeds `df[attr].astype(CategoricalDtype(vals, ordered=True) if
type(vals[0]) == str else type(vals[0]))` for one column, given the first
filter-list element `v0`: the categorical cast keeps the filter list as the
category order and maps values outside it to NaN, the other casts convert
to the native type of `v0`. -/
def astypeCol (col : Col) (vals : List Scalar) (v0 : Scalar) :
    Except PyError Col :=
  match v0 with
  | .str _ =>
      .ok { name := col.name
            dtype := .categorical (vals.map scalarToDb) true
            values := col.values.map (fun c =>
              if inCats (vals.map scalarToDb) c then c else Cell.null) }
  | .int _ =>
      (col.values.mapM castCellInt).map (fun vs =>
        { name := col.name, dtype := .intT, values := vs })
  | .float _ =>
      (col.values.mapM castCellFloat).map (fun vs =>
        { name := col.name, dtype := .floatT, values := vs })
  | .bool _ =>
      .ok { name := col.name, dtype := .boolT
            values := col.values.map castCellBool }

/-- Embeds the post-processing loop `for attr, vals in by.items(): df[attr]
= df[attr].astype(...)`: for every grouping attribute, in order, the column
is looked up (`KeyError` when it was elided), the first filter-list element
is read (`IndexError` when the filter list is empty) and the column is cast
in place. -/
def castAll (by_ : GroupMap) (df : DataFrame) : Except PyError DataFrame :=
  match by_ with
  | [] => .ok df
  | (attr, vals) :: rest =>
      match df.find? (fun c => c.name == attr) with
      | none => .error (.keyError attr)
      | some col =>
          match vals with
          | [] => .error .indexError
          | v0 :: _ =>
              match astypeCol col vals v0 with
              | .error e => .error e
              | .ok col' =>
                  castAll rest
                    (df.map (fun c => if c.name == attr then col' else c))

/-- The strings `vectorName IN variable` compares against, together with
`len(variable)`: the normalized variable value must be a list whose
elements sqlalchemy can render as SQL literals (scalars, rendered with the
TEXT affinity of the compared column); any other shape fails when the
query is built, not in the normalizer. -/
def variableStrings : PyVal → Except PyError (List String)
  | .vList xs =>
      match asScalarList xs with
      | some vs => .ok (vs.map scalarToDb)
      | none => .error (.typeError "variable is not a list of SQL literals")
  | _ => .error (.typeError "object of this type has no len()")

/-- Embeds `get_vector`: normalize the grouping and variable arguments,
build and run the statement, load the data frame and run the category cast
loop.  The `filter_` argument is modelled as an optional predicate on the
sample value (the only column the spec's examples constrain). -/
def get_vector (db : Database) (by_ variable_ : PyVal) (time module_ : Bool)
    (filter_ : Option (ℚ → Bool)) (aggregate : Option Agg)
    (self_descriptive_result : Bool) : Except PyError DataFrame :=
  match normalize_by by_ with
  | .error e => .error e
  | .ok byMap =>
      match variableStrings (normalize_variable variable_) with
      | .error e => .error e
      | .ok vars =>
          castAll byMap
            (read_sql_df db byMap vars filter_ aggregate time module_
              self_descriptive_result)

/-- Follows the spec's words (for comparison with `normalize_by`): the
shapes of `by` the spec accepts — a string, a list of strings, or a mapping
with string keys. -/
def byShapeOk : PyVal → Bool
  | .vStr _ => true
  | .vList xs => xs.all (fun x => x.asStr.isSome)
  | .vDict entries => entries.all (fun e => e.1.asStr.isSome)
  | _ => false

/-- Follows the spec's words (for comparison with `normalize_filter`): the
filter-value shapes accepted without error — `None`, a scalar of type
int/float/bool/str, or a list of such scalars. -/
def filterShapeOk : PyVal → Bool
  | .vNone => true
  | .vList xs => xs.all (fun x => x.asScalar.isSome)
  | .vDict _ => false
  | _ => true

/-- The average aggregation function (`sqa.func.avg`). -/
def avgAgg : Agg :=
  { name := "avg", fn := fun l => l.sum / (l.length : ℚ) }

/-- A one-run database with an unconstrained `nCars` attribute and two
`collisions` samples, mirroring the docstring's first example. -/
def c1Db : Database :=
  { run := [{ runId := 1, simtimeExp := 0 }]
    runattr := [{ runId := 1, dbId := 1, attrName := "nCars", attrValue := "160" }]
    runparam := []
    vector := [{ vectorId := 1, runId := 1, moduleName := "node", vectorName := "collisions" }]
    vectordata := [{ vectorId := 1, simtimeRaw := 0, value := 150 },
                   { vectorId := 1, simtimeRaw := 1, value := 161 }] }

/-- A one-run database whose `nCars` attribute is `320`, mirroring the
docstring's singular-filter example. -/
def c2Db : Database :=
  { run := [{ runId := 1, simtimeExp := 0 }]
    runattr := [{ runId := 1, dbId := 1, attrName := "nCars", attrValue := "320" }]
    runparam := []
    vector := [{ vectorId := 1, runId := 1, moduleName := "node", vectorName := "collisions" }]
    vectordata := [{ vectorId := 1, simtimeRaw := 0, value := 484 }] }

/-- A one-run database with two vectors (`collisions` and `speed`). -/
def c3Db : Database :=
  { run := [{ runId := 1, simtimeExp := 0 }]
    runattr := [{ runId := 1, dbId := 1, attrName := "nCars", attrValue := "160" }]
    runparam := []
    vector := [{ vectorId := 1, runId := 1, moduleName := "node", vectorName := "collisions" },
               { vectorId := 2, runId := 1, moduleName := "node", vectorName := "speed" }]
    vectordata := [{ vectorId := 1, simtimeRaw := 0, value := 150 },
                   { vectorId := 2, simtimeRaw := 0, value := 13 }] }

/-- A grouping argument constraining `nCars` to the two string values
`"160"` and `"320"` (kept as a column, categorical cast applies). -/
def c3By : PyVal := .vDict [(.vStr "nCars", .vList [.vStr "160", .vStr "320"])]

/-- A two-run database (`nCars = 320`, repetitions 0 and 1) with
`collisions` samples, for the aggregation-grouping claim. -/
def c4Db : Database :=
  { run := [{ runId := 1, simtimeExp := 0 }, { runId := 2, simtimeExp := 0 }]
    runattr := [{ runId := 1, dbId := 1, attrName := "nCars", attrValue := "320" },
                { runId := 1, dbId := 2, attrName := "repetition", attrValue := "0" },
                { runId := 2, dbId := 3, attrName := "nCars", attrValue := "320" },
                { runId := 2, dbId := 4, attrName := "repetition", attrValue := "1" }]
    runparam := []
    vector := [{ vectorId := 1, runId := 1, moduleName := "node", vectorName := "collisions" },
               { vectorId := 2, runId := 2, moduleName := "node", vectorName := "collisions" }]
    vectordata := [{ vectorId := 1, simtimeRaw := 0, value := 484 },
                   { vectorId := 1, simtimeRaw := 1, value := 589 },
                   { vectorId := 2, simtimeRaw := 0, value := 585 }] }

/-- The grouping map of the spec's aggregation example,
`{nCars: v, repetition: []}`, for an arbitrary singular filter value. -/
def c4ByMap (v : Scalar) : GroupMap := [("nCars", [v]), ("repetition", [])]

/-- A database whose only parameter name has `nCars` as a proper suffix. -/
def suffixDemoDb : Database :=
  { run := [], runattr := [], vector := [], vectordata := []
    runparam := [{ parName := "**.vehicles.totalnCars", parValue := "200" }] }

/-- A database storing two distinct values for the same parameter name. -/
def multiParamDb : Database :=
  { run := [], runattr := [], vector := [], vectordata := []
    runparam := [{ parName := "cfg.p", parValue := "1" },
                 { parName := "cfg.p", parValue := "2" }] }

/-- A database storing a single parameter value. -/
def uniqueParamDb : Database :=
  { run := [], runattr := [], vector := [], vectordata := []
    runparam := [{ parName := "cfg.q", parValue := "7" }] }

/-- A database with no parameter rows at all. -/
def emptyParamDb : Database :=
  { run := [], runattr := [], vector := [], vectordata := [], runparam := [] }

/-- The joined row the first sample of `c4Db` produces under the
`{nCars: 320, repetition: []}` grouping. -/
def c4Jrw : JRow :=
  { runId := 1, simtimeExp := 0, moduleName := "node"
    vectorName := "collisions", simtimeRaw := 0, value := 484
    attrVals := ["320", "0"] }

/-- The data frame returned by `get_vector c3Db c3By "collisions"` with all
options at their defaults. -/
def c7df : DataFrame :=
  [{ name := "nCars", dtype := .categorical ["160", "320"] true
     values := [.s "160"] },
   { name := "value", dtype := .floatT, values := [.q 150] }]

/-- The `nCars` column of `c7df`. -/
def c7colNCars : Col :=
  { name := "nCars", dtype := .categorical ["160", "320"] true
    values := [.s "160"] }

theorem mem_dedupFirst {α : Type} [DecidableEq α] {a : α} :
    ∀ {l : List α}, a ∈ dedupFirst l ↔ a ∈ l
  | [] => Iff.rfl
  | b :: l => by
      by_cases hab : a = b
      · subst hab; simp [dedupFirst]
      · simp [dedupFirst, hab, List.mem_filter, mem_dedupFirst (l := l)]

theorem nodup_dedupFirst {α : Type} [DecidableEq α] :
    ∀ l : List α, (dedupFirst l).Nodup
  | [] => List.nodup_nil
  | a :: l => by
      refine List.nodup_cons.mpr ⟨?_, (nodup_dedupFirst l).filter _⟩
      simp [List.mem_filter]

theorem asScalarList_toPy : ∀ vs : List Scalar,
    asScalarList (vs.map Scalar.toPy) = some vs
  | [] => rfl
  | v :: vs => by
      cases v <;> simp [asScalarList, PyVal.asScalar, Scalar.toPy, asScalarList_toPy vs]

theorem asScalarList_isSome : ∀ xs : List PyVal,
    (asScalarList xs).isSome = xs.all (fun x => x.asScalar.isSome)
  | [] => rfl
  | x :: xs => by
      rw [List.all_cons, ← asScalarList_isSome xs]
      cases hx : x.asScalar <;> cases hxs : asScalarList xs <;>
        simp [asScalarList, hx, hxs]

theorem asStrList_isSome : ∀ xs : List PyVal,
    (asStrList xs).isSome = xs.all (fun x => x.asStr.isSome)
  | [] => rfl
  | x :: xs => by
      rw [List.all_cons, ← asStrList_isSome xs]
      cases hx : x.asStr <;> cases hxs : asStrList xs <;>
        simp [asStrList, hx, hxs]

theorem normEntries_ok_filters :
    ∀ {entries : List (PyVal × PyVal)} {m : GroupMap},
      normEntries entries = .ok m →
      ∀ e ∈ entries, ∃ fl, normalize_filter e.2 = .ok fl := by
  intro entries
  induction entries with
  | nil => intro m _ e he; cases he
  | cons ef rest ih =>
      intro m hm e he
      obtain ⟨k, f⟩ := ef
      cases hf : normalize_filter f with
      | error err => rw [normEntries, hf] at hm; cases hm
      | ok fl =>
          rw [normEntries, hf] at hm
          cases ht : normEntries rest with
          | error err => rw [ht] at hm; cases hm
          | ok tail =>
              rcases List.mem_cons.mp he with rfl | he'
              · exact ⟨fl, hf⟩
              · exact ih ht e he'

theorem anyTail_append {f : List Char → Bool} {v : List Char}
    (hv : f v = true) : ∀ u, anyTail f (u ++ v) = true
  | [] => by
      cases v with
      | nil => simpa [anyTail] using hv
      | cons d t => simp [anyTail, hv]
  | c :: u => by simp [anyTail, anyTail_append hv u]

theorem likeMatch_self : ∀ {p : List Char},
    (∀ c ∈ p, c ≠ '%' ∧ c ≠ '_') → likeMatch p p = true
  | [], _ => rfl
  | c :: p, h => by
      have hc := h c (List.mem_cons_self c p)
      simp [likeMatch, hc.1,
        likeMatch_self (fun d hd => h d (List.mem_cons_of_mem c hd))]

theorem likeMatch_endswith {name s : List Char}
    (h : ∀ c ∈ name, c ≠ '%' ∧ c ≠ '_') (hs : name <:+ s) :
    likeMatch ('%' :: name) s = true := by
  obtain ⟨u, rfl⟩ := hs
  simp [likeMatch, anyTail_append (likeMatch_self h) u]

theorem castAll_cons_ok {attr : String} {vals : List Scalar}
    {rest : GroupMap} {df df' : DataFrame}
    (h : castAll ((attr, vals) :: rest) df = .ok df') :
    ∃ col v0 vs col', df.find? (fun c => c.name == attr) = some col ∧
      vals = v0 :: vs ∧ astypeCol col vals v0 = .ok col' ∧
      castAll rest (df.map (fun c => if c.name == attr then col' else c))
        = .ok df' := by
  rw [castAll] at h
  split at h
  · cases h
  · next col hfind =>
      split at h
      · cases h
      · next v0 vs =>
          split at h
          · cases h
          · next col' hcast => exact ⟨col, v0, vs, col', hfind, rfl, hcast, h⟩

theorem find?_col_name {df : DataFrame} {a : String} {col : Col}
    (h : df.find? (fun c => c.name == a) = some col) :
    col ∈ df ∧ col.name = a := by
  have hp := List.find?_some h
  exact ⟨List.mem_of_find?_eq_some h, by simpa using hp⟩

theorem astypeCol_name {col : Col} {vals : List Scalar} {v0 : Scalar}
    {col' : Col} (h : astypeCol col vals v0 = .ok col') :
    col'.name = col.name := by
  cases v0 with
  | str s => rw [astypeCol] at h; cases h; rfl
  | bool b => rw [astypeCol] at h; cases h; rfl
  | int n =>
      rw [astypeCol] at h
      cases hm : col.values.mapM castCellInt with
      | error e => rw [hm] at h; simp only [Except.map] at h; cases h
      | ok vs => rw [hm] at h; simp only [Except.map] at h; cases h; rfl
  | float q =>
      rw [astypeCol] at h
      cases hm : col.values.mapM castCellFloat with
      | error e => rw [hm] at h; simp only [Except.map] at h; cases h
      | ok vs => rw [hm] at h; simp only [Except.map] at h; cases h; rfl

theorem astypeCol_str_dtype {col : Col} {vals : List Scalar} {s : String}
    {col' : Col} (h : astypeCol col vals (.str s) = .ok col') :
    col'.dtype = .categorical (vals.map scalarToDb) true := by
  rw [astypeCol] at h; cases h; rfl

theorem replace_preserves_names {df : DataFrame} {attr : String}
    {col' : Col} (h : col'.name = attr) :
    (df.map (fun c => if c.name == attr then col' else c)).map Col.name
      = df.map Col.name := by
  rw [List.map_map]
  refine List.map_congr_left ?_
  intro c _
  by_cases hc : c.name = attr
  · simp [Function.comp, hc, h]
  · simp [Function.comp, hc]

theorem castAll_names : ∀ {by_ : GroupMap} {df df' : DataFrame},
    castAll by_ df = .ok df' → df'.map Col.name = df.map Col.name := by
  intro by_
  induction by_ with
  | nil => intro df df' h; rw [castAll] at h; cases h; rfl
  | cons p rest ih =>
      intro df df' h
      obtain ⟨a, avals⟩ := p
      obtain ⟨col, v0, vs, col', hfind, hvals, hcast, hrest⟩ :=
        castAll_cons_ok h
      have hname : col'.name = a :=
        (astypeCol_name hcast).trans (find?_col_name hfind).2
      rw [ih hrest, replace_preserves_names hname]

theorem castAll_untouched : ∀ {by_ : GroupMap} {df df' : DataFrame},
    castAll by_ df = .ok df' →
    ∀ c ∈ df', c.name ∉ by_.map Prod.fst → c ∈ df := by
  intro by_
  induction by_ with
  | nil => intro df df' h c hc _; rw [castAll] at h; cases h; exact hc
  | cons p rest ih =>
      intro df df' h c hc hnot
      obtain ⟨a, avals⟩ := p
      obtain ⟨col, v0, vs, col', hfind, hvals, hcast, hrest⟩ :=
        castAll_cons_ok h
      have hname : col'.name = a :=
        (astypeCol_name hcast).trans (find?_col_name hfind).2
      have hnota : c.name ≠ a := by
        intro hh; exact hnot (by simp [hh])
      have hnotrest : c.name ∉ rest.map Prod.fst := by
        intro hh; exact hnot (by simp [hh])
      obtain ⟨c0, hc0, hrepl⟩ := List.mem_map.mp (ih hrest c hc hnotrest)
      by_cases h0 : c0.name = a
      · rw [if_pos (beq_iff_eq.mpr h0)] at hrepl
        exact absurd (hrepl ▸ hname) hnota
      · rw [if_neg (by simp [h0])] at hrepl
        exact hrepl ▸ hc0

theorem castAll_keys_ok : ∀ {by_ : GroupMap} {df df' : DataFrame},
    castAll by_ df = .ok df' →
    ∀ attr vals, (attr, vals) ∈ by_ →
      vals ≠ [] ∧ attr ∈ df.map Col.name := by
  intro by_
  induction by_ with
  | nil => intro df df' _ attr vals hm; cases hm
  | cons p rest ih =>
      intro df df' h attr vals hm
      obtain ⟨a, avals⟩ := p
      obtain ⟨col, v0, vs, col', hfind, hvals, hcast, hrest⟩ :=
        castAll_cons_ok h
      have hname : col'.name = a :=
        (astypeCol_name hcast).trans (find?_col_name hfind).2
      rcases List.mem_cons.mp hm with heq | hm'
      · injection heq with h1 h2
        subst h1; subst h2
        refine ⟨by simp [hvals], ?_⟩
        exact List.mem_map.mpr
          ⟨col, (find?_col_name hfind).1, (find?_col_name hfind).2⟩
      · have h2 := ih hrest attr vals hm'
        refine ⟨h2.1, ?_⟩
        rw [← replace_preserves_names hname]
        exact h2.2

theorem castAll_dtype : ∀ {by_ : GroupMap} {df df' : DataFrame},
    castAll by_ df = .ok df' → (by_.map Prod.fst).Nodup →
    ∀ attr s0 srest, (attr, Scalar.str s0 :: srest) ∈ by_ →
    ∀ c ∈ df', c.name = attr →
      c.dtype = .categorical ((Scalar.str s0 :: srest).map scalarToDb) true := by
  intro by_
  induction by_ with
  | nil => intro df df' _ _ attr s0 srest hm; cases hm
  | cons p rest ih =>
      intro df df' h hnd attr s0 srest hm c hc hcname
      obtain ⟨a, avals⟩ := p
      obtain ⟨col, v0, vs, col', hfind, hvals, hcast, hrest⟩ :=
        castAll_cons_ok h
      have hname : col'.name = a :=
        (astypeCol_name hcast).trans (find?_col_name hfind).2
      have hnd' : a ∉ rest.map Prod.fst ∧ (rest.map Prod.fst).Nodup :=
        List.nodup_cons.mp (by simpa using hnd)
      rcases List.mem_cons.mp hm with heq | hm'
      · injection heq with h1 h2
        subst h1
        rw [← h2] at hvals
        injection hvals with ha hb
        have hdt : col'.dtype
            = .categorical ((Scalar.str s0 :: srest).map scalarToDb) true := by
          rw [← h2, ← ha] at hcast
          exact astypeCol_str_dtype hcast
        have hca := castAll_untouched hrest c hc
          (by rw [hcname]; exact hnd'.1)
        obtain ⟨c0, hc0, hrepl⟩ := List.mem_map.mp hca
        by_cases h0 : c0.name = attr
        · rw [if_pos (beq_iff_eq.mpr h0)] at hrepl
          rw [← hrepl]
          exact hdt
        · rw [if_neg (by simp [h0])] at hrepl
          exact absurd (hrepl ▸ hcname) h0
      · exact ih hrest hnd'.2 attr s0 srest hm' c hc hcname

/-- C1: the default-options call `get_vector(engine, by="nCars",
variable="collisions")` does not succeed with a `[nCars, collisions]`
table: the post-processing cast loop reads the first element of the empty
`nCars` filter list and the call raises `IndexError`, even on a database
holding matching samples. -/
theorem get_vector_default_call_fails :
    get_vector c1Db (.vStr "nCars") (.vStr "collisions")
      false false none none false = .error .indexError := by decide

/-- C2: a grouping attribute with a single filter value and
`self_descriptive_result=false` is elided from the select list, but the
cast loop then fails with `KeyError` on the missing column, so no result
is produced; with `self_descriptive_result=true` the same call succeeds
and the attribute appears as a column. -/
theorem get_vector_singular_elision_crashes :
    get_vector c2Db (.vDict [(.vStr "nCars", .vStr "320")])
      (.vStr "collisions") false false none none false
      = .error (.keyError "nCars") ∧
    get_vector c2Db (.vDict [(.vStr "nCars", .vStr "320")])
      (.vStr "collisions") false false none none true
      = .ok [{ name := "nCars", dtype := .categorical ["320"] true,
               values := [.s "320"] },
             { name := "vectorName", dtype := .object,
               values := [.s "collisions"] },
             { name := "value", dtype := .floatT, values := [.q 484] }] := by
  decide

/-- C3: with exactly one requested variable and
`self_descriptive_result=false` the result has no vector-name column, but
its value column keeps the database name `value` — it is not renamed to
the variable name; with two requested variables the explicit `vectorName`
column is present. -/
theorem get_vector_value_column_not_renamed :
    (get_vector c3Db c3By (.vStr "collisions")
        false false none none false).map (fun df => df.map Col.name)
      = .ok ["nCars", "value"] ∧
    (get_vector c3Db c3By (.vList [.vStr "collisions", .vStr "speed"])
        false false none none false).map (fun df => df.map Col.name)
      = .ok ["nCars", "vectorName", "value"] := by decide

/-- C5: the three accepted `by` shapes normalize to the same canonical
grouping map — `n`, `[n]` and `{n: []}` all give `{n: []}`; a mapping
value of `None` gives an empty filter list, a bare scalar a one-element
list, a list of scalars that list, preserving order; key order is
preserved. -/
theorem normalize_by_canonical (n m : String) (v : Scalar)
    (vs : List Scalar) :
    normalize_by (.vStr n) = .ok [(n, [])] ∧
    normalize_by (.vList [.vStr n]) = .ok [(n, [])] ∧
    normalize_by (.vDict [(.vStr n, .vList [])]) = .ok [(n, [])] ∧
    normalize_by (.vDict [(.vStr n, .vNone)]) = .ok [(n, [])] ∧
    normalize_by (.vDict [(.vStr n, v.toPy)]) = .ok [(n, [v])] ∧
    normalize_by (.vDict [(.vStr n, .vList (vs.map Scalar.toPy))])
      = .ok [(n, vs)] ∧
    normalize_by (.vDict [(.vStr n, .vNone), (.vStr m, .vNone)])
      = .ok [(n, []), (m, [])] := by
  refine ⟨rfl, rfl, rfl, rfl, ?_, ?_, rfl⟩
  · cases v <;> rfl
  · simp [normalize_by, normEntries, normalize_filter, asScalarList_toPy,
      PyVal.asStr, PyVal.asScalar]

/-- C6 counterexample: a filter value of `None` — a value whose type is
outside `{int, float, bool, str}` — is not rejected: normalization
succeeds and maps it to an empty filter list, so no `InvalidSpecification`
error is raised. -/
theorem none_filter_value_not_rejected :
    normalize_by (.vDict [(.vStr "nCars", .vNone)]) = .ok [("nCars", [])] :=
  rfl

/-- C6 (amended): a malformed `by` (not a string, list of strings, or dict
with string keys) raises `TypeError` in the normalizer, a malformed filter
value (neither `None`, nor an int/float/bool/str scalar, nor a list of
such scalars) raises `TypeError`, and a dict whose values contain such a
malformed filter never normalizes; but `None` filter values are accepted
as an empty filter list, and `normalize_variable` validates nothing (every
value passes through, strings are merely wrapped in a list). -/
theorem normalizer_rejects_malformed_shapes :
    (∀ b : PyVal, byShapeOk b = false →
      normalize_by b = .error (.typeError byTypeMsg)) ∧
    (∀ f : PyVal, filterShapeOk f = false →
      normalize_filter f = .error (.typeError filterTypeMsg)) ∧
    (∀ entries : List (PyVal × PyVal), byShapeOk (.vDict entries) = true →
      (∃ e ∈ entries, filterShapeOk e.2 = false) →
      ∀ g : GroupMap, normalize_by (.vDict entries) ≠ .ok g) ∧
    normalize_filter .vNone = .ok [] ∧
    (∀ v : PyVal, normalize_variable v = v ∨
      normalize_variable v = .vList [v]) := by
  have hfilt : ∀ f : PyVal, filterShapeOk f = false →
      normalize_filter f = .error (.typeError filterTypeMsg) := by
    intro f hf
    cases f with
    | vList xs =>
        have hf' : xs.all (fun x => x.asScalar.isSome) = false := hf
        cases hxs : asScalarList xs with
        | some vs =>
            have h1 := asScalarList_isSome xs
            rw [hxs, hf'] at h1
            simp at h1
        | none => simp [normalize_filter, hxs]
    | vDict entries => rfl
    | vNone => cases hf
    | vInt n => cases hf
    | vFloat q => cases hf
    | vBool b => cases hf
    | vStr s => cases hf
  refine ⟨?_, hfilt, ?_, rfl, ?_⟩
  · intro b hb
    cases b with
    | vList xs =>
        have hb' : xs.all (fun x => x.asStr.isSome) = false := hb
        cases hxs : asStrList xs with
        | some names =>
            have h1 := asStrList_isSome xs
            rw [hxs, hb'] at h1
            simp at h1
        | none => simp [normalize_by, hxs]
    | vDict entries => simp [normalize_by, byShapeOk.eq_def] at hb ⊢; simp [hb]
    | vStr s => cases hb
    | vNone => rfl
    | vInt n => rfl
    | vFloat q => rfl
    | vBool b => rfl
  · intro entries hsh hbad g hok
    obtain ⟨e, he, hef⟩ := hbad
    have hall : entries.all (fun e => e.1.asStr.isSome) = true := hsh
    rw [normalize_by, if_pos hall] at hok
    obtain ⟨fl, hfl⟩ := normEntries_ok_filters hok e he
    rw [hfilt e.2 hef] at hfl
    cases hfl
  · intro v
    cases v <;> simp [normalize_variable]

/-- C8: `get_unique_param` does not fail on a non-unique parameter: with
two distinct stored values the underlying `scalar()` silently returns the
first value instead of raising `MultipleResultsFound`; a unique value is
returned coerced to the requested type; and with zero matching values the
call only fails for some requested types (`str(None)` succeeds and yields
the string `"None"`). -/
theorem get_unique_param_no_multiple_results_error :
    get_unique_param uniqueParamDb "q" PyType.intT = .ok (.int 7) ∧
    distinctParamValues multiParamDb "p" = ["1", "2"] ∧
    get_unique_param multiParamDb "p" PyType.intT = .ok (.int 1) ∧
    get_unique_param emptyParamDb "p" PyType.strT = .ok (.str "None") := by
  decide

/-- C9: installing the decimal-warning suppression is idempotent — a second
application removes the duplicate entry before re-inserting it at the
front, leaving the warning-filter state identical to the state after the
first application. -/
theorem ignore_decimal_warning_idempotent (fs : List WarningFilter) :
    ignore_decimal_warning (ignore_decimal_warning fs)
      = ignore_decimal_warning fs := by
  simp [ignore_decimal_warning, filterwarnings]

/-- C10: `get_unique_param` matches parameter names by suffix: every stored
parameter row whose name ends with the requested (wildcard-free) name is
selected by the `LIKE '%name'` lookup and its value enters the distinct
value list; concretely, looking up `nCars` on a database storing only
`**.vehicles.totalnCars = 200` returns 200. -/
theorem get_unique_param_suffix_matching
    (db : Database) (name : String) (r : RunParamRow)
    (hw : ∀ c ∈ name.data, c ≠ '%' ∧ c ≠ '_')
    (hr : r ∈ db.runparam) (hsuf : name.data <:+ r.parName.data) :
    r ∈ matchedParamRows db name ∧
    r.parValue ∈ distinctParamValues db name ∧
    get_unique_param suffixDemoDb "nCars" PyType.intT = .ok (.int 200) := by
  have hm : r ∈ matchedParamRows db name :=
    List.mem_filter.mpr ⟨hr, likeMatch_endswith hw hsuf⟩
  refine ⟨hm, ?_, by decide⟩
  exact mem_dedupFirst.mpr (List.mem_map_of_mem _ hm)

/-- Witness for the suffix-matching theorem at a concrete database. -/
theorem get_unique_param_suffix_matching_witness :
    ({ parName := "**.vehicles.totalnCars", parValue := "200" } : RunParamRow)
      ∈ matchedParamRows suffixDemoDb "nCars" ∧
    "200" ∈ distinctParamValues suffixDemoDb "nCars" ∧
    get_unique_param suffixDemoDb "nCars" PyType.intT = .ok (.int 200) :=
  get_unique_param_suffix_matching suffixDemoDb "nCars"
    { parName := "**.vehicles.totalnCars", parValue := "200" }
    (by decide) (by decide) ⟨"**.vehicles.total".data, by decide⟩

/-- C4: with an aggregate function the built statement groups by exactly
the attribute-subquery value columns of the grouping attributes whose
filter list does not have exactly one entry; for `{nCars: v, repetition:
[]}` only `repetition` (position 1) is grouped, the group keys of the
loaded frame are exactly the distinct repetition values of the matched
rows (each occurring once), and every loaded column has one row per
distinct key. -/
theorem aggregate_groups_by_nonsingular
    (db : Database) (vars : List String) (filter_ : Option (ℚ → Bool))
    (g : Agg) (v : Scalar) :
    groupIdxs (c4ByMap v) = [1] ∧
    (∀ by_ : GroupMap, groupIdxs by_
      = (by_.enum.filter (fun p => decide (p.2.2.length ≠ 1))).map Prod.fst) ∧
    (dedupFirst ((matchedRows db (c4ByMap v) vars filter_).map
      (keyOf [1]))).Nodup ∧
    (∀ jr ∈ matchedRows db (c4ByMap v) vars filter_,
      keyOf [1] jr ∈ dedupFirst
        ((matchedRows db (c4ByMap v) vars filter_).map (keyOf [1]))) ∧
    (∀ k ∈ dedupFirst
        ((matchedRows db (c4ByMap v) vars filter_).map (keyOf [1])),
      ∃ jr ∈ matchedRows db (c4ByMap v) vars filter_, keyOf [1] jr = k) ∧
    (∀ c ∈ read_sql_df db (c4ByMap v) vars filter_ (some g) false false false,
      c.values.length = (dedupFirst
        ((matchedRows db (c4ByMap v) vars filter_).map (keyOf [1]))).length) := by
  refine ⟨rfl, ?_, nodup_dedupFirst _, ?_, ?_, ?_⟩
  · intro by_
    have hfun : (fun p : Nat × String × List Scalar => !single_filter p.2.2)
        = (fun p : Nat × String × List Scalar =>
            decide (p.2.2.length ≠ 1)) := by
      funext p
      simp [single_filter, beq_eq_decide]
    rw [groupIdxs, hfun]
  · intro jr hjr
    exact mem_dedupFirst.mpr (List.mem_map_of_mem _ hjr)
  · intro k hk
    obtain ⟨jr, hjr, rfl⟩ := List.mem_map.mp (mem_dedupFirst.mp hk)
    exact ⟨jr, hjr, rfl⟩
  · intro c hc
    rw [read_sql_df] at hc
    obtain ⟨sc, hsc, rfl⟩ := List.mem_map.mp hc
    simp [aggGroups, show groupIdxs (c4ByMap v) = [1] from rfl]

/-- Witness for the aggregation-grouping theorem at a concrete database. -/
theorem aggregate_groups_by_nonsingular_witness :
    groupIdxs (c4ByMap (.int 320)) = [1] ∧
    keyOf [1] c4Jrw ∈ dedupFirst
      ((matchedRows c4Db (c4ByMap (.int 320)) ["collisions"] none).map
        (keyOf [1])) := by
  have h := aggregate_groups_by_nonsingular c4Db ["collisions"] none avgAgg
    (.int 320)
  exact ⟨h.1, h.2.2.2.1 c4Jrw (by decide)⟩

/-- C7 counterexample: a grouping attribute with an empty (unconstrained)
filter list does not produce a column whose category order is the distinct
observed values in first-seen order — even with observed rows present the
call fails with `IndexError`, returning no result at all. -/
theorem empty_filter_list_cast_fails :
    get_vector c1Db (.vDict [(.vStr "nCars", .vList [])]) (.vStr "collisions")
      false false none none false = .error .indexError ∧
    ¬ ∃ df, get_vector c1Db (.vDict [(.vStr "nCars", .vList [])])
      (.vStr "collisions") false false none none false = .ok df := by
  have h1 : get_vector c1Db (.vDict [(.vStr "nCars", .vList [])])
      (.vStr "collisions") false false none none false
      = .error .indexError := by decide
  refine ⟨h1, ?_⟩
  rintro ⟨df, h2⟩
  rw [h1] at h2
  cases h2

/-- C7 (amended): on every successful call, each grouping attribute has a
non-empty filter list and its column is present in the result, and every
grouping attribute whose filter list starts with a string value has its
column cast to an ordered categorical type whose category order is exactly
the caller-supplied filter-list order. -/
theorem get_vector_categorical_order
    (db : Database) (by_ variable_ : PyVal) (time module_ : Bool)
    (filter_ : Option (ℚ → Bool)) (aggregate : Option Agg) (sd : Bool)
    (byMap : GroupMap) (df : DataFrame)
    (hby : normalize_by by_ = .ok byMap)
    (hkeys : (byMap.map Prod.fst).Nodup)
    (hok : get_vector db by_ variable_ time module_ filter_ aggregate sd
      = .ok df) :
    (∀ attr vals, (attr, vals) ∈ byMap →
      vals ≠ [] ∧ attr ∈ df.map Col.name) ∧
    (∀ attr s0 srest, (attr, Scalar.str s0 :: srest) ∈ byMap →
      ∀ c ∈ df, c.name = attr →
        c.dtype = .categorical
          ((Scalar.str s0 :: srest).map scalarToDb) true) := by
  rw [get_vector] at hok
  split at hok
  · cases hok
  · next byMap2 hby2 =>
      rw [hby] at hby2
      injection hby2 with hbm
      subst hbm
      split at hok
      · cases hok
      · next vars hv =>
          constructor
          · intro attr vals hm
            have h1 := castAll_keys_ok hok attr vals hm
            exact ⟨h1.1, by rw [castAll_names hok]; exact h1.2⟩
          · intro attr s0 srest hm c hc hcn
            exact castAll_dtype hok hkeys attr s0 srest hm c hc hcn

/-- Witness for the categorical-order theorem at a concrete call. -/
theorem get_vector_categorical_order_witness :
    ([Scalar.str "160", Scalar.str "320"] ≠ ([] : List Scalar)) ∧
    "nCars" ∈ c7df.map Col.name ∧
    c7colNCars.dtype = .categorical ["160", "320"] true := by
  have h := get_vector_categorical_order c3Db c3By (.vStr "collisions")
    false false none none false [("nCars", [.str "160", .str "320"])] c7df
    (by decide) (by decide) (by decide)
  refine ⟨(h.1 "nCars" [.str "160", .str "320"] (by decide)).1,
    (h.1 "nCars" [.str "160", .str "320"] (by decide)).2, ?_⟩
  exact h.2 "nCars" "160" [.str "320"] (by decide) c7colNCars (by decide) rfl

/-- Witness instantiating the canonical-normalization theorem. -/
theorem normalize_by_canonical_witness :
    normalize_by (.vStr "nCars") = .ok [("nCars", [])] ∧
    normalize_by (.vDict [(.vStr "nCars", .vInt 320)])
      = .ok [("nCars", [.int 320])] :=
  have h := normalize_by_canonical "nCars" "repetition" (.int 320) []
  ⟨h.1, h.2.2.2.2.1⟩

/-- Witness instantiating the malformed-shape rejection theorem. -/
theorem normalizer_rejects_malformed_shapes_witness :
    normalize_by (.vInt 0) = .error (.typeError byTypeMsg) ∧
    normalize_filter (.vList [.vNone]) = .error (.typeError filterTypeMsg) ∧
    normalize_by (.vDict [(.vStr "a", .vDict [])]) ≠ .ok [("a", [])] := by
  have h := normalizer_rejects_malformed_shapes
  exact ⟨h.1 (.vInt 0) rfl, h.2.1 (.vList [.vNone]) rfl,
    h.2.2.1 [(.vStr "a", .vDict [])] rfl
      ⟨(.vStr "a", .vDict []), List.mem_singleton.mpr rfl, rfl⟩ [("a", [])]⟩

/-- Witness instantiating the warning-suppression idempotence theorem at
the empty filter state. -/
theorem ignore_decimal_warning_idempotent_witness :
    ignore_decimal_warning (ignore_decimal_warning [])
      = ignore_decimal_warning [] :=
  ignore_decimal_warning_idempotent []

end Oppsql
